import Mathlib

/-!
# Verification of the Botanic-ai-web core service layer

Shallow embedding of `src/services/analysisService.ts`:
the image normalizer (`compressImage`), the retrying submission client
(`analyzeImage`) and the translation adapter (`translateText`).

Network effects are modelled explicitly: the sequence of HTTP responses the
`fetch` calls would observe is a parameter (`resp : Nat → HttpResponse`,
indexed by attempt number), and the embedding records the number of fetch
calls made and the list of backoff delays slept, so that claims about retry
counts and delays are statable.
-/

namespace BotanicAi

/-- An HTTP response as observed by `analyzeImage` via `fetch`:
status code, status text, and the body read by `response.text()`. -/
structure HttpResponse where
  status : Nat
  statusText : String
  body : String
deriving Repr, DecidableEq

/-- `response.ok` in the browser fetch API: status in the range 200–299. -/
def HttpResponse.ok (r : HttpResponse) : Bool :=
  200 ≤ r.status && r.status ≤ 299

/-! ## JSON model

`analyzeImage` calls `JSON.parse` on the response body and, on the
shape-mismatch path, `JSON.stringify(v, null, 2)`.  We embed a JSON value
type, a strict parser following the JSON grammar (as `JSON.parse` does), and
the 2-space pretty printer.  Numeric literals are kept as their source text
(`num raw`): no claim depends on float formatting, and this keeps the model
exact.  Duplicate object keys resolve to the last occurrence, as in JS. -/

inductive JsonValue where
  | null
  | bool (b : Bool)
  | num (raw : String)
  | str (s : String)
  | arr (items : List JsonValue)
  | obj (fields : List (String × JsonValue))
deriving Repr

/-- JSON whitespace characters (space, tab, newline, carriage return). -/
def isJsonWs (c : Char) : Bool :=
  c = ' ' || c = '\t' || c = '\n' || c = '\r'

/-- Skip leading JSON whitespace. -/
def skipWs : List Char → List Char
  | [] => []
  | c :: cs => if isJsonWs c then skipWs cs else c :: cs

/-- Hex digit value, if `c` is a hex digit. -/
def hexVal (c : Char) : Option Nat :=
  if '0' ≤ c ∧ c ≤ '9' then some (c.toNat - '0'.toNat)
  else if 'a' ≤ c ∧ c ≤ 'f' then some (c.toNat - 'a'.toNat + 10)
  else if 'A' ≤ c ∧ c ≤ 'F' then some (c.toNat - 'A'.toNat + 10)
  else none

/-- Decode the body of a JSON string literal (after the opening quote),
handling the escape sequences of the JSON grammar.  `\uXXXX` decodes to the
code point when it is a valid scalar value (surrogate pairing is not needed
by any claim). -/
def parseStringBody : List Char → Option (List Char × List Char)
  | [] => none
  | '"' :: rest => some ([], rest)
  | '\\' :: e :: rest =>
    match e with
    | '"' => (parseStringBody rest).map (fun p => ('"' :: p.1, p.2))
    | '\\' => (parseStringBody rest).map (fun p => ('\\' :: p.1, p.2))
    | '/' => (parseStringBody rest).map (fun p => ('/' :: p.1, p.2))
    | 'b' => (parseStringBody rest).map (fun p => ('\x08' :: p.1, p.2))
    | 'f' => (parseStringBody rest).map (fun p => ('\x0c' :: p.1, p.2))
    | 'n' => (parseStringBody rest).map (fun p => ('\n' :: p.1, p.2))
    | 'r' => (parseStringBody rest).map (fun p => ('\r' :: p.1, p.2))
    | 't' => (parseStringBody rest).map (fun p => ('\t' :: p.1, p.2))
    | 'u' =>
      match rest with
      | h1 :: h2 :: h3 :: h4 :: rest2 =>
        match hexVal h1, hexVal h2, hexVal h3, hexVal h4 with
        | some a, some b, some c, some d =>
          let n := ((a * 16 + b) * 16 + c) * 16 + d
          if n.isValidChar then
            (parseStringBody rest2).map (fun p => (Char.ofNat n :: p.1, p.2))
          else none
        | _, _, _, _ => none
      | _ => none
    | _ => none
  | c :: rest =>
    if c.toNat < 0x20 then none
    else (parseStringBody rest).map (fun p => (c :: p.1, p.2))

/-- One or more decimal digits, returned as source text. -/
def parseDigits : List Char → Option (List Char × List Char)
  | c :: cs =>
    if c.isDigit then
      match parseDigits cs with
      | some (ds, rest) => some (c :: ds, rest)
      | none => some ([c], cs)
    else none
  | [] => none

/-- The integer part of a JSON number: `0`, or a nonzero digit followed by
digits (leading zeros are rejected, as by `JSON.parse`). -/
def parseIntPart : List Char → Option (List Char × List Char)
  | '0' :: cs => some (['0'], cs)
  | c :: cs =>
    if c.isDigit then
      match parseDigits cs with
      | some (ds, rest) => some (c :: ds, rest)
      | none => some ([c], cs)
    else none
  | [] => none

/-- Optional fraction part `.digits`. -/
def parseFrac : List Char → List Char × List Char
  | '.' :: cs =>
    match parseDigits cs with
    | some (ds, rest) => ('.' :: ds, rest)
    | none => ([], '.' :: cs)
  | cs => ([], cs)

/-- Optional exponent part `e|E [+|-] digits`. -/
def parseExp : List Char → List Char × List Char
  | e :: cs =>
    if e = 'e' ∨ e = 'E' then
      match cs with
      | s :: cs2 =>
        if s = '+' ∨ s = '-' then
          match parseDigits cs2 with
          | some (ds, rest) => (e :: s :: ds, rest)
          | none => ([], e :: cs)
        else
          match parseDigits cs with
          | some (ds, rest) => (e :: ds, rest)
          | none => ([], e :: cs)
      | [] => ([], [e])
    else ([], e :: cs)
  | [] => ([], [])

/-- A JSON number literal, kept as its source text. -/
def parseNumber (cs : List Char) : Option (List Char × List Char) :=
  match cs with
  | '-' :: cs2 =>
    match parseIntPart cs2 with
    | some (ip, rest) =>
      let (fp, rest2) := parseFrac rest
      let (ep, rest3) := parseExp rest2
      some ('-' :: ip ++ fp ++ ep, rest3)
    | none => none
  | _ =>
    match parseIntPart cs with
    | some (ip, rest) =>
      let (fp, rest2) := parseFrac rest
      let (ep, rest3) := parseExp rest2
      some (ip ++ fp ++ ep, rest3)
    | none => none

/-- Check that `pre` is a literal prefix of `cs`, returning the remainder. -/
def eatLit : List Char → List Char → Option (List Char)
  | [], cs => some cs
  | p :: ps, c :: cs => if p = c then eatLit ps cs else none
  | _ :: _, [] => none

mutual

/-- Parse one JSON value (fuel-bounded recursive-descent following the JSON
grammar, as `JSON.parse` implements it). -/
def parseValue : Nat → List Char → Option (JsonValue × List Char)
  | 0, _ => none
  | fuel + 1, cs =>
    match cs with
    | [] => none
    | '"' :: rest =>
      (parseStringBody rest).map (fun p => (.str (String.mk p.1), p.2))
    | '\x7b' :: rest => parseObjFields fuel (skipWs rest) true
    | '[' :: rest => parseArrItems fuel (skipWs rest) true
    | 't' :: rest => (eatLit ['r', 'u', 'e'] rest).map (fun r => (.bool true, r))
    | 'f' :: rest => (eatLit ['a', 'l', 's', 'e'] rest).map (fun r => (.bool false, r))
    | 'n' :: rest => (eatLit ['u', 'l', 'l'] rest).map (fun r => (.null, r))
    | _ =>
      (parseNumber cs).map (fun p => (.num (String.mk p.1), p.2))

/-- Parse the fields of an object after `\x7b` (and leading whitespace).
`first` is true before the first field. -/
def parseObjFields : Nat → List Char → Bool → Option (JsonValue × List Char)
  | 0, _, _ => none
  | _ + 1, '\x7d' :: rest, true => some (.obj [], rest)
  | fuel + 1, cs, _ =>
    match cs with
    | '"' :: rest =>
        match parseStringBody rest with
        | some (key, rest2) =>
          match skipWs rest2 with
          | ':' :: rest3 =>
            match parseValue fuel (skipWs rest3) with
            | some (v, rest4) =>
              match skipWs rest4 with
              | ',' :: rest5 =>
                match parseObjFields fuel (skipWs rest5) false with
                | some (.obj fs, rest6) => some (.obj ((String.mk key, v) :: fs), rest6)
                | _ => none
              | '\x7d' :: rest5 => some (.obj [(String.mk key, v)], rest5)
              | _ => none
            | none => none
          | _ => none
        | none => none
    | _ => none

/-- Parse the items of an array after `[` (and leading whitespace). -/
def parseArrItems : Nat → List Char → Bool → Option (JsonValue × List Char)
  | 0, _, _ => none
  | _ + 1, ']' :: rest, true => some (.arr [], rest)
  | fuel + 1, cs, _ =>
    match parseValue fuel cs with
    | some (v, rest) =>
      match skipWs rest with
      | ',' :: rest2 =>
        match parseArrItems fuel (skipWs rest2) false with
        | some (.arr vs, rest3) => some (.arr (v :: vs), rest3)
        | _ => none
      | ']' :: rest2 => some (.arr [v], rest2)
      | _ => none
    | none => none

end

/-- `JSON.parse` on a whole string: a single JSON value surrounded by
optional whitespace; `none` models a thrown `SyntaxError`. -/
def jsonParse (s : String) : Option JsonValue :=
  let cs := skipWs s.toList
  match parseValue (cs.length + 1) cs with
  | some (v, rest) => if skipWs rest = [] then some v else none
  | none => none

/-- Lower-case hex digit for `n < 16`. -/
def toHexDigit (n : Nat) : Char :=
  if n < 10 then Char.ofNat ('0'.toNat + n) else Char.ofNat ('a'.toNat + n - 10)

/-- Escape one character as `JSON.stringify` quotes strings: `"`, `\`,
the short escapes, and `\u00xx` for other control characters. -/
def escapeJsonChar (c : Char) : List Char :=
  if c = '"' then ['\\', '"']
  else if c = '\\' then ['\\', '\\']
  else if c = '\x08' then ['\\', 'b']
  else if c = '\x0c' then ['\\', 'f']
  else if c = '\n' then ['\\', 'n']
  else if c = '\r' then ['\\', 'r']
  else if c = '\t' then ['\\', 't']
  else if c.toNat < 0x20 then
    ['\\', 'u', toHexDigit (c.toNat / 4096 % 16), toHexDigit (c.toNat / 256 % 16),
     toHexDigit (c.toNat / 16 % 16), toHexDigit (c.toNat % 16)]
  else [c]

/-- Quote a string as a JSON string literal. -/
def quoteJson (s : String) : String :=
  String.mk ('"' :: s.toList.flatMap escapeJsonChar ++ ['"'])

/-- `n` spaces. -/
def spacesN (n : Nat) : String :=
  String.mk (List.replicate n ' ')

mutual

/-- `JSON.stringify(v, null, 2)` at indentation level `ind`. -/
def stringifyVal : Nat → JsonValue → String
  | _, .null => "null"
  | _, .bool true => "true"
  | _, .bool false => "false"
  | _, .num raw => raw
  | _, .str s => quoteJson s
  | _, .arr [] => "[]"
  | ind, .arr (v :: vs) =>
    "[\n" ++ stringifyItems (ind + 2) (v :: vs) ++ "\n" ++ spacesN ind ++ "]"
  | _, .obj [] => "\x7b\x7d"
  | ind, .obj (f :: fs) =>
    "\x7b\n" ++ stringifyFields (ind + 2) (f :: fs) ++ "\n" ++ spacesN ind ++ "\x7d"

/-- Array items of `JSON.stringify(·, null, 2)`, one per line. -/
def stringifyItems : Nat → List JsonValue → String
  | _, [] => ""
  | ind, [v] => spacesN ind ++ stringifyVal ind v
  | ind, v :: w :: vs =>
    spacesN ind ++ stringifyVal ind v ++ ",\n" ++ stringifyItems ind (w :: vs)

/-- Object fields of `JSON.stringify(·, null, 2)`, one per line. -/
def stringifyFields : Nat → List (String × JsonValue) → String
  | _, [] => ""
  | ind, [(k, v)] => spacesN ind ++ quoteJson k ++ ": " ++ stringifyVal ind v
  | ind, (k, v) :: f :: fs =>
    spacesN ind ++ quoteJson k ++ ": " ++ stringifyVal ind v ++ ",\n" ++
      stringifyFields ind (f :: fs)

end

/-- `JSON.stringify(v, null, 2)`. -/
def jsStringify2 (v : JsonValue) : String := stringifyVal 0 v

/-- Field access on a parsed JSON value: in a JS object built by
`JSON.parse`, a duplicated key keeps its last occurrence. -/
def lookupField (fields : List (String × JsonValue)) (key : String) : Option JsonValue :=
  (fields.reverse.find? (fun p => p.1 = key)).map (fun p => p.2)

/-- `webhookResponse?.text` followed by the `typeof analysisText === 'string'`
check: a string `text` field of an object, and nothing else. -/
def getTextField : JsonValue → Option String
  | .obj fields =>
    match lookupField fields "text" with
    | some (.str s) => some s
    | _ => none
  | _ => none

/-! ## The submission client (`analyzeImage`) -/

def MAX_RETRIES : Nat := 3

def INITIAL_DELAY_MS : Nat := 1000

/-- `INITIAL_DELAY_MS * Math.pow(2, attempt - 1)`: the backoff slept after
failing attempt number `attempt` (when further attempts remain). -/
def backoffDelay (attempt : Nat) : Nat :=
  INITIAL_DELAY_MS * 2 ^ (attempt - 1)

/-- The 4xx rejection message built at line 99 of the source. -/
def rejectMsg (r : HttpResponse) : String :=
  "Analysis service rejected the request: " ++ toString r.status ++ " " ++
    r.statusText ++ " - " ++ (if r.body = "" then "(no error body)" else r.body)

/-- The non-ok (mostly 5xx) message built at line 105 of the source. -/
def failMsg (r : HttpResponse) : String :=
  "Webhook request failed: " ++ toString r.status ++ " " ++
    r.statusText ++ " - " ++ (if r.body = "" then "(no error body)" else r.body)

/-- The empty-2xx-body message. -/
def emptyBodyMsg : String :=
  "The analysis service returned a successful but empty response."

/-- The diagnostic result returned when valid JSON lacks a string `text`. -/
def diagMsg (v : JsonValue) : String :=
  "Could not find analysis text in the response. The service returned:\n\n" ++
    jsStringify2 v

/-- The success-path handling of a non-empty 2xx body: `JSON.parse` in a
`try`; an object with a string `text` field returns it, other valid JSON
returns the diagnostic string, and a parse failure returns the raw text. -/
def handleBody (responseText : String) : String :=
  match jsonParse responseText with
  | none => responseText
  | some v =>
    match getTextField v with
    | some t => t
    | none => diagMsg v

/-- One iteration of the `try` block of the retry loop, given the response
the `fetch` produced: either a returned success string, or the message of
the error thrown inside the `try` (all of which the `catch` receives). -/
def processResponse (r : HttpResponse) : Except String String :=
  if 400 ≤ r.status ∧ r.status < 500 then
    .error (rejectMsg r)
  else if ¬ r.ok then
    .error (failMsg r)
  else if r.body = "" then
    .error emptyBodyMsg
  else
    .ok (handleBody r.body)

/-- The error thrown after the loop exhausts all retries
(`lastError?.message || 'Unknown error'`). -/
def finalErrorMsg (lastError : Option String) : String :=
  "Failed to get a response from the analysis service after " ++
    toString MAX_RETRIES ++
    " attempts. The service may be temporarily unavailable. Last error: " ++
    (match lastError with
     | some m => if m = "" then "Unknown error" else m
     | none => "Unknown error")

/-- Outcome of a run of `analyzeImage`: the returned string or thrown error
message, the number of `fetch` calls made, and the backoff delays slept,
in order. -/
structure AnalyzeResult where
  result : Except String String
  fetchCount : Nat
  delays : List Nat
deriving Repr

/-- The retry loop of `analyzeImage`, from attempt number `attempt` with
`remaining` attempts left (`remaining = MAX_RETRIES - attempt + 1`).  A
caught error is retried after a backoff when attempts remain — note the
source catches every error thrown in the `try`, including the 4xx
rejection. -/
def analyzeLoop (resp : Nat → HttpResponse) : Nat → Nat → Option String → AnalyzeResult
  | _, 0, lastError => ⟨.error (finalErrorMsg lastError), 0, []⟩
  | attempt, remaining + 1, _ =>
    match processResponse (resp attempt) with
    | .ok s => ⟨.ok s, 1, []⟩
    | .error e =>
      if remaining = 0 then
        ⟨.error (finalErrorMsg (some e)), 1, []⟩
      else
        let rest := analyzeLoop resp (attempt + 1) remaining (some e)
        ⟨rest.result, rest.fetchCount + 1, backoffDelay attempt :: rest.delays⟩

/-- `analyzeImage`'s network phase: run the retry loop from attempt 1 over
the stream of responses the endpoint would give to each attempt. -/
def analyzeImage (resp : Nat → HttpResponse) : AnalyzeResult :=
  analyzeLoop resp 1 MAX_RETRIES none

/-! ## The image normalizer (`compressImage`) -/

/-- `Math.round (a / b)` for nonnegative `a, b` with `b > 0`, computed
exactly: JS rounds half away from zero there, i.e. `⌊a/b + 1/2⌋`. -/
def roundHalfUp (a b : Nat) : Nat :=
  (2 * a + b) / (2 * b)

/-- The dimension computation of `compressImage` (source lines 22–31):
scale the driving (longer) dimension to `maxWidth` and round the other from
the ratio; leave both unchanged if the longer edge fits. -/
def compressDims (width height maxWidth : Nat) : Nat × Nat :=
  if width > height then
    if width > maxWidth then (maxWidth, roundHalfUp (height * maxWidth) width)
    else (width, height)
  else
    if height > maxWidth then (roundHalfUp (width * maxWidth) height, maxWidth)
    else (width, height)

/-- `String.prototype.lastIndexOf` for a single character: last index of
`c` in `cs`, or `-1`. -/
def jsLastIndexOf (cs : List Char) (c : Char) : Int :=
  match cs.reverse.findIdx? (fun x => x = c) with
  | some i => ((cs.length - 1 - i : Nat) : Int)
  | none => -1

/-- `s.substring(0, e)`: JS clamps a negative end to 0 (so
`substring(0, -1)` is the empty string). -/
def jsSubstringTo (cs : List Char) (e : Int) : List Char :=
  cs.take e.toNat

/-- The output filename of `compressImage` (source line 46):
`file.name.substring(0, file.name.lastIndexOf('.')) + '.jpg'`. -/
def compressedFileName (name : String) : String :=
  String.mk (jsSubstringTo name.toList (jsLastIndexOf name.toList '.')) ++ ".jpg"

/-! ## The translation adapter (`translateText`)

The single `generateContent` call is modelled by its outcome:
`.error e` when the transport or service throws with message `e`, and
`.ok t` when it returns a response whose `text` field is `t`
(`none` models a missing field; `response.text` may also be `""`, which the
`!translatedText` check treats the same way). -/

/-- The body of the `try` block of `translateText`: the service call, the
falsy check on `response.text`, and the throw on an empty completion. -/
def translateAttempt (call : Except String (Option String)) : Except String String :=
  match call with
  | .error e => .error e
  | .ok t =>
    match t with
    | none => .error "Translation service returned an empty response."
    | some s =>
      if s = "" then .error "Translation service returned an empty response."
      else .ok s

/-- `translateText text` given the outcome of the (single possible) service
call: returns the result string paired with the number of network calls
issued.  The function is total — the `catch` turns every failure into the
original text, so no error escapes to the caller. -/
def translateText (text : String) (call : Except String (Option String)) : String × Nat :=
  if text = "" then ("", 0)
  else
    match translateAttempt call with
    | .ok s => (s, 1)
    | .error _ => (text, 1)

/-! ## Helper lemmas -/

/-- `Math.round (a / b) ≤ m` whenever `a ≤ b * m` and `b > 0`. -/
theorem roundHalfUp_le (a b m : Nat) (hb : 0 < b) (ha : a ≤ b * m) :
    roundHalfUp a b ≤ m := by
  unfold roundHalfUp
  have h1 : 2 * a + b < (m + 1) * (2 * b) := by nlinarith
  exact Nat.lt_succ_iff.mp ((Nat.div_lt_iff_lt_mul (by omega)).mpr h1)

/-- If the first attempt succeeds, the loop returns at once: one fetch, no
delays. -/
theorem analyzeImage_of_ok1 (resp : Nat → HttpResponse) (s : String)
    (h1 : processResponse (resp 1) = .ok s) :
    analyzeImage resp = ⟨.ok s, 1, []⟩ := by
  simp [analyzeImage, MAX_RETRIES, analyzeLoop, h1]

/-- If all three attempts fail, the loop makes three fetches, sleeps the two
backoffs, and throws the final error carrying the last message. -/
theorem analyzeImage_of_errors (resp : Nat → HttpResponse) (e1 e2 e3 : String)
    (h1 : processResponse (resp 1) = .error e1)
    (h2 : processResponse (resp 2) = .error e2)
    (h3 : processResponse (resp 3) = .error e3) :
    analyzeImage resp =
      ⟨.error (finalErrorMsg (some e3)), 3, [backoffDelay 1, backoffDelay 2]⟩ := by
  simp [analyzeImage, MAX_RETRIES, analyzeLoop, h1, h2, h3]

/-- The final error message spelled out, for a non-empty last error. -/
theorem finalErrorMsg_eq (m : String) (hm : m ≠ "") :
    finalErrorMsg (some m) =
      "Failed to get a response from the analysis service after 3 attempts. The service may be temporarily unavailable. Last error: " ++ m := by
  simp only [finalErrorMsg]
  rw [if_neg hm]
  rfl

/-- `lastIndexOf` is `-1` on a string not containing the character. -/
theorem jsLastIndexOf_of_not_mem (cs : List Char) (c : Char)
    (h : ∀ x ∈ cs, x ≠ c) : jsLastIndexOf cs c = -1 := by
  unfold jsLastIndexOf
  have hnone : cs.reverse.findIdx? (fun x => x = c) = none := by
    rw [List.findIdx?_eq_none_iff]
    intro x hx
    simp only [decide_eq_false_iff_not]
    exact h x (List.mem_reverse.mp hx)
  rw [hnone]

/-- `lastIndexOf` finds the last occurrence: on `pre ++ c :: suf` with no
`c` in `suf`, it is `pre.length`. -/
theorem jsLastIndexOf_last (pre suf : List Char) (c : Char)
    (h : ∀ x ∈ suf, x ≠ c) :
    jsLastIndexOf (pre ++ c :: suf) c = (pre.length : Int) := by
  unfold jsLastIndexOf
  have hnone : suf.reverse.findIdx? (fun x => x = c) = none := by
    rw [List.findIdx?_eq_none_iff]
    intro x hx
    simp only [decide_eq_false_iff_not]
    exact h x (List.mem_reverse.mp hx)
  rw [List.reverse_append, List.reverse_cons, List.findIdx?_append,
    List.findIdx?_append, hnone]
  simp only [List.findIdx?_cons, List.findIdx?_nil, decide_eq_true_eq,
    eq_self_iff_true, if_true, Option.map_some', Option.none_or,
    Option.or_some, List.length_reverse, List.length_append, List.length_cons]
  omega

/-! ## Claim theorems -/

/-- C6: for every input image whose longer edge is at most `maxEdge`
(default 1024), `compressImage` leaves the pixel dimensions unchanged:
no upscaling is ever performed. -/
theorem compressDims_no_upscale (w h maxE : Nat) (hle : max w h ≤ maxE) :
    compressDims w h maxE = (w, h) := by
  have h1 : w ≤ maxE := le_trans (le_max_left w h) hle
  have h2 : h ≤ maxE := le_trans (le_max_right w h) hle
  unfold compressDims
  split <;> rw [if_neg (by omega)]

/-- Witness for C6 at a concrete 800×600 image with `maxEdge = 1024`. -/
theorem compressDims_no_upscale_witness :
    max 800 600 ≤ 1024 ∧ compressDims 800 600 1024 = (800, 600) :=
  ⟨by decide, compressDims_no_upscale 800 600 1024 (by decide)⟩

/-- C7: for every input whose longer edge exceeds `maxEdge`, the output long
edge equals `maxEdge` exactly, the other dimension is the half-up rounding
of `shorter * maxEdge / longer`, and hence the output long edge never
exceeds `maxEdge`. -/
theorem compressDims_downscale (w h maxE : Nat) (hgt : maxE < max w h) :
    compressDims w h maxE =
      (if h < w then (maxE, roundHalfUp (min w h * maxE) (max w h))
       else (roundHalfUp (min w h * maxE) (max w h), maxE)) ∧
    max (compressDims w h maxE).1 (compressDims w h maxE).2 = maxE := by
  by_cases hwh : h < w
  · have hmin : min w h = h := Nat.min_eq_right (le_of_lt hwh)
    have hmax : max w h = w := Nat.max_eq_left (le_of_lt hwh)
    have hwm : maxE < w := by rw [hmax] at hgt; exact hgt
    have heq : compressDims w h maxE = (maxE, roundHalfUp (h * maxE) w) := by
      unfold compressDims
      rw [if_pos hwh, if_pos hwm]
    have hbound : roundHalfUp (h * maxE) w ≤ maxE :=
      roundHalfUp_le _ _ _ (by omega) (Nat.mul_le_mul_right maxE (le_of_lt hwh))
    refine ⟨?_, ?_⟩
    · rw [heq, if_pos hwh, hmin, hmax]
    · rw [heq]
      exact Nat.max_eq_left hbound
  · have hwle : w ≤ h := Nat.le_of_not_lt hwh
    have hmin : min w h = w := Nat.min_eq_left hwle
    have hmax : max w h = h := Nat.max_eq_right hwle
    have hhm : maxE < h := by rw [hmax] at hgt; exact hgt
    have heq : compressDims w h maxE = (roundHalfUp (w * maxE) h, maxE) := by
      unfold compressDims
      rw [if_neg hwh, if_pos hhm]
    have hbound : roundHalfUp (w * maxE) h ≤ maxE :=
      roundHalfUp_le _ _ _ (by omega) (Nat.mul_le_mul_right maxE hwle)
    refine ⟨?_, ?_⟩
    · rw [heq, if_neg hwh, hmin, hmax]
    · rw [heq]
      exact Nat.max_eq_right hbound

/-- Witness for C7 at a concrete 2048×1536 image with `maxEdge = 1024`. -/
theorem compressDims_downscale_witness :
    1024 < max 2048 1536 ∧
    compressDims 2048 1536 1024 = (1024, roundHalfUp (min 2048 1536 * 1024) (max 2048 1536)) ∧
    max (compressDims 2048 1536 1024).1 (compressDims 2048 1536 1024).2 = 1024 := by
  have h := compressDims_downscale 2048 1536 1024 (by decide)
  exact ⟨by decide, by rw [h.1]; rfl, h.2⟩

/-- C8: the empty input string makes `translateText` return the empty
string with zero network calls. -/
theorem translateText_empty : ∀ call, translateText "" call = ("", 0) :=
  fun _ => rfl

/-- C9: for every non-empty input, `translateText` issues one service call
and never propagates an error: a failed attempt (transport or service error,
missing or empty completion) degrades to the original text, and a successful
attempt returns the service's translated text.  (`translateText` is a total
function into `String × Nat`: no error value escapes to the caller.) -/
theorem translateText_never_raises (text : String) (call : Except String (Option String))
    (hne : text ≠ "") :
    (translateText text call).2 = 1 ∧
    (∀ e, translateAttempt call = .error e → (translateText text call).1 = text) ∧
    (∀ s, translateAttempt call = .ok s → (translateText text call).1 = s) := by
  unfold translateText
  rw [if_neg hne]
  cases h : translateAttempt call with
  | error e => simp [h]
  | ok s => simp [h]

/-- Witness for C9: a call whose completion is missing degrades to the
original text. -/
theorem translateText_never_raises_witness :
    "hello" ≠ "" ∧ (translateText "hello" (Except.ok none)).1 = "hello" :=
  ⟨by decide,
   (translateText_never_raises "hello" (Except.ok none) (by decide)).2.1
     "Translation service returned an empty response." rfl⟩

/-- C1: the spec says a 400–499 response is fatal after exactly 1 attempt
with no further fetches and no backoff, and the source's comments agree
("This is a final error, throw it and exit the retry loop") — but the 4xx
rejection is thrown inside the `try` block, so the loop's own `catch`
receives it and retries it like any transient failure.  With every attempt
answered by a 404 response, `analyzeImage` makes all 3 fetch calls, sleeps
the 1000 ms and 2000 ms backoffs, and throws the exhausted-retries error
whose last error is the 404 rejection message. -/
theorem analyzeImage_404_retried :
    analyzeImage (fun _ => ⟨404, "Not Found", ""⟩) =
      ⟨Except.error ("Failed to get a response from the analysis service after 3 attempts. The service may be temporarily unavailable. Last error: Analysis service rejected the request: 404 Not Found - (no error body)"),
       3, [1000, 2000]⟩ := rfl

/-- C2: when all `MAX_RETRIES = 3` attempts end in retryable failures,
exactly one error is thrown, and its message carries the attempt count (3)
and the last observed error message. -/
theorem analyzeImage_exhausted (resp : Nat → HttpResponse) (e1 e2 e3 : String)
    (h1 : processResponse (resp 1) = .error e1)
    (h2 : processResponse (resp 2) = .error e2)
    (h3 : processResponse (resp 3) = .error e3)
    (hne : e3 ≠ "") :
    (analyzeImage resp).fetchCount = MAX_RETRIES ∧
    (analyzeImage resp).result = .error
      ("Failed to get a response from the analysis service after 3 attempts. The service may be temporarily unavailable. Last error: " ++ e3) := by
  rw [analyzeImage_of_errors resp e1 e2 e3 h1 h2 h3]
  exact ⟨rfl, by rw [show (⟨.error (finalErrorMsg (some e3)), 3,
    [backoffDelay 1, backoffDelay 2]⟩ : AnalyzeResult).result =
      .error (finalErrorMsg (some e3)) from rfl, finalErrorMsg_eq e3 hne]⟩

/-- Witness for C2: three consecutive 500 responses. -/
theorem analyzeImage_exhausted_witness :
    (analyzeImage (fun _ => ⟨500, "Internal Server Error", ""⟩)).fetchCount = MAX_RETRIES ∧
    (analyzeImage (fun _ => ⟨500, "Internal Server Error", ""⟩)).result = .error
      ("Failed to get a response from the analysis service after 3 attempts. The service may be temporarily unavailable. Last error: " ++
        "Webhook request failed: 500 Internal Server Error - (no error body)") :=
  analyzeImage_exhausted (fun _ => ⟨500, "Internal Server Error", ""⟩)
    "Webhook request failed: 500 Internal Server Error - (no error body)"
    "Webhook request failed: 500 Internal Server Error - (no error body)"
    "Webhook request failed: 500 Internal Server Error - (no error body)"
    rfl rfl rfl (by decide)

/-- C3: the backoff slept before attempt `k+1` is
`INITIAL_DELAY_MS * 2^(k-1)` (so the delays, in order, are 1000 ms,
2000 ms, …), and no delay follows the final attempt: the delay list always
has one entry per non-final failed attempt.  In particular, 500 on attempts
1 and 2 followed by 200 with body `{"text":"ok"}` yields `"ok"` after
exactly the two delays 1000 ms and 2000 ms. -/
theorem analyzeImage_backoff_schedule :
    (∀ resp : Nat → HttpResponse,
      (analyzeImage resp).delays =
        (List.range ((analyzeImage resp).fetchCount - 1)).map
          (fun i => INITIAL_DELAY_MS * 2 ^ i)) ∧
    analyzeImage (fun k =>
        if k ≤ 2 then ⟨500, "Internal Server Error", ""⟩
        else ⟨200, "OK", "\x7b\"text\":\"ok\"\x7d"⟩) =
      ⟨.ok "ok", 3, [1000, 2000]⟩ := by
  constructor
  · intro resp
    cases h1 : processResponse (resp 1) with
    | ok s => simp [analyzeImage, MAX_RETRIES, analyzeLoop, h1]
    | error e1 =>
      cases h2 : processResponse (resp 2) with
      | ok s =>
        simp [analyzeImage, MAX_RETRIES, analyzeLoop, h1, h2, backoffDelay,
          INITIAL_DELAY_MS, List.range_succ]
      | error e2 =>
        cases h3 : processResponse (resp 3) with
        | ok s =>
          simp [analyzeImage, MAX_RETRIES, analyzeLoop, h1, h2, h3,
            backoffDelay, INITIAL_DELAY_MS, List.range_succ]
        | error e3 =>
          simp [analyzeImage, MAX_RETRIES, analyzeLoop, h1, h2, h3,
            backoffDelay, INITIAL_DELAY_MS, List.range_succ]
  · rfl

/-- C4: a 2xx response with an empty body is classified as a retryable
failure and is never returned as a success: with every attempt so answered,
the loop retries through all attempts with the standard backoffs and ends
in the exhausted-retries error. -/
theorem analyzeImage_emptyBody_retryable (r : HttpResponse)
    (h1 : 200 ≤ r.status) (h2 : r.status ≤ 299) (hb : r.body = "") :
    processResponse r = .error emptyBodyMsg ∧
    (analyzeImage (fun _ => r)).fetchCount = MAX_RETRIES ∧
    (analyzeImage (fun _ => r)).delays = [1000, 2000] ∧
    (analyzeImage (fun _ => r)).result = .error (finalErrorMsg (some emptyBodyMsg)) := by
  have hok : r.ok = true := by
    simp only [HttpResponse.ok, Bool.and_eq_true, decide_eq_true_eq]
    omega
  have hpr : processResponse r = .error emptyBodyMsg := by
    unfold processResponse
    rw [if_neg (by omega), if_neg (by simp [hok]), if_pos hb]
  rw [analyzeImage_of_errors (fun _ => r) _ _ _ hpr hpr hpr]
  exact ⟨hpr, rfl, by simp [backoffDelay, INITIAL_DELAY_MS], rfl⟩

/-- Witness for C4: a 200 response with empty body. -/
theorem analyzeImage_emptyBody_retryable_witness :
    processResponse ⟨200, "OK", ""⟩ = .error emptyBodyMsg ∧
    (analyzeImage (fun _ => ⟨200, "OK", ""⟩)).fetchCount = MAX_RETRIES ∧
    (analyzeImage (fun _ => ⟨200, "OK", ""⟩)).delays = [1000, 2000] ∧
    (analyzeImage (fun _ => ⟨200, "OK", ""⟩)).result =
      .error (finalErrorMsg (some emptyBodyMsg)) :=
  analyzeImage_emptyBody_retryable ⟨200, "OK", ""⟩ (by decide) (by decide) rfl

/-- C5: a 2xx response with a non-empty body succeeds on the first attempt
with the value of `handleBody`: the `text` string field of a parsed JSON
object; the raw body when the body is not valid JSON; and the diagnostic
string embedding the 2-space-indented serialization of the payload when the
JSON is valid but has no string `text` field. -/
theorem analyzeImage_success_paths (r : HttpResponse)
    (h1 : 200 ≤ r.status) (h2 : r.status ≤ 299) (hb : r.body ≠ "") :
    processResponse r = .ok (handleBody r.body) ∧
    analyzeImage (fun _ => r) = ⟨.ok (handleBody r.body), 1, []⟩ ∧
    (∀ v t, jsonParse r.body = some v → getTextField v = some t →
      handleBody r.body = t) ∧
    (jsonParse r.body = none → handleBody r.body = r.body) ∧
    (∀ v, jsonParse r.body = some v → getTextField v = none →
      handleBody r.body = diagMsg v) := by
  have hok : r.ok = true := by
    simp only [HttpResponse.ok, Bool.and_eq_true, decide_eq_true_eq]
    omega
  have hpr : processResponse r = .ok (handleBody r.body) := by
    unfold processResponse
    rw [if_neg (by omega), if_neg (by simp [hok]), if_neg hb]
  refine ⟨hpr, analyzeImage_of_ok1 (fun _ => r) _ hpr, ?_, ?_, ?_⟩
  · intro v t hp ht
    simp [handleBody, hp, ht]
  · intro hp
    simp [handleBody, hp]
  · intro v hp ht
    simp [handleBody, hp, ht]

/-- Witness for C5: a 200 response with the non-JSON body
`"plain text report"` returns that exact string. -/
theorem analyzeImage_success_paths_witness :
    handleBody "plain text report" = "plain text report" ∧
    analyzeImage (fun _ => ⟨200, "OK", "plain text report"⟩) =
      ⟨.ok "plain text report", 1, []⟩ := by
  have h := analyzeImage_success_paths ⟨200, "OK", "plain text report"⟩
    (by decide) (by decide) (by decide)
  have hp : handleBody "plain text report" = "plain text report" :=
    h.2.2.2.1 rfl
  exact ⟨hp, by rw [h.2.1, hp]⟩

/-- C10: the normalizer's output filename keeps the prefix before the last
`.` and appends `.jpg`; a filename without any `.` yields exactly `".jpg"`
(`lastIndexOf` returns `-1` and `substring(0, -1)` is empty, discarding the
whole base name). -/
theorem compressedFileName_spec (name : String) :
    ((∀ x ∈ name.toList, x ≠ '.') → compressedFileName name = ".jpg") ∧
    (∀ pre suf : List Char, name.toList = pre ++ '.' :: suf →
      (∀ x ∈ suf, x ≠ '.') →
      compressedFileName name = String.mk pre ++ ".jpg") := by
  constructor
  · intro h
    unfold compressedFileName jsSubstringTo
    rw [jsLastIndexOf_of_not_mem _ _ h]
    rfl
  · intro pre suf hsplit hsuf
    unfold compressedFileName jsSubstringTo
    rw [hsplit, jsLastIndexOf_last pre suf '.' hsuf, Int.toNat_natCast,
      List.take_left]

/-- Witness for C10: `photo.png` becomes `photo.jpg`, and a dotless name
becomes `.jpg`. -/
theorem compressedFileName_spec_witness :
    compressedFileName "photo.png" = String.mk "photo".toList ++ ".jpg" ∧
    compressedFileName "photo" = ".jpg" :=
  ⟨(compressedFileName_spec "photo.png").2 "photo".toList "png".toList
      (by decide) (by decide),
   (compressedFileName_spec "photo").1 (by decide)⟩

end BotanicAi
